import Mathlib

/-!
Verification of the SPNEGO authentication middleware of node-expose-sspi.

The embedding below follows src/auth.ts: the option defaulting and the
construction-time conflict check, the credential renewal routine
checkCredentials, and the request handler returned by auth. The
security provider (sspi), the base64 codec and the session assembler
are external collaborators and appear as functions in an environment
record; a provider step that throws is an Except.error. The
ServerContextHandleManager and the SSO class are code of the repository
that is not among the given sources, so their effect is modelled from
the spec: the manager keeps, per correlation key, at most one pending
context handle (a slot), with store, get, release and an await-free
operation; the session assembler is total because the spec states that
enrichment failures only degrade the session and never abort an
authentication outcome. Each request produces an Outcome: the response
fields written, the new server state, the list of arguments passed to
the next continuation, an event trace in program order, and the session
attached to the request.
-/

/-- Security statuses of the provider accept step as the code inspects
them: SEC_I_CONTINUE_NEEDED, SEC_E_OK, SEC_E_LOGON_DENIED, anything else. -/
inductive SecurityStatus where
  | continueNeeded
  | secOk
  | logonDenied
  | otherError
deriving DecidableEq, Repr

/-- Mechanism label sniffed from the token leading bytes in auth.ts
(token.startsWith YII ? Kerberos : NTLM). -/
inductive Method where
  | kerberos
  | ntlm
deriving DecidableEq, Repr

/-- Input assembled for sspi.AcceptSecurityContext: the server
credential, the decoded client token, and the optional existing context
handle taken from the manager. -/
structure AcceptInput where
  credential : Nat
  buffer : List Nat
  contextHandle : Option Nat
deriving DecidableEq, Repr

/-- Result of sspi.AcceptSecurityContext: the context handle, the output
buffer (SecBufferDesc.buffers[0]) and the SECURITY_STATUS. -/
structure AcceptResult where
  contextHandle : Nat
  outBuffer : List Nat
  status : SecurityStatus
deriving DecidableEq, Repr

/-- Caller options with presence tracking, mirroring the optional fields
of the TS interface AuthOptions. -/
structure AuthOptions where
  useGroups : Option Bool := none
  useActiveDirectory : Option Bool := none
  useOwner : Option Bool := none
  useCookies : Option Bool := none
deriving DecidableEq, Repr

/-- Options after Object.assign of the caller options over the defaults
of auth.ts: useActiveDirectory=true, useGroups=true, useOwner=false,
useCookies=false. -/
structure ResolvedOptions where
  useGroups : Bool
  useActiveDirectory : Bool
  useOwner : Bool
  useCookies : Bool
deriving DecidableEq, Repr

/-- Object.assign semantics: a field given by the caller overrides the
default, an absent field keeps it. -/
def resolveOptions (o : AuthOptions) : ResolvedOptions where
  useGroups := o.useGroups.getD true
  useActiveDirectory := o.useActiveDirectory.getD true
  useOwner := o.useOwner.getD false
  useCookies := o.useCookies.getD false

/-- The external world of the middleware: the current time, the pairs
returned by AcquireCredentialsHandle at construction and on renewal,
the base64 decoder, the provider accept step (Except.error models a
thrown exception), and the session assembler. The assembler is modelled
from the spec: SSO is not among the sources and the spec states that
enrichment failures degrade the session payload only, so it is a total
function of the handle, the sniffed method and the options. -/
structure Env where
  now : Int
  initialCred : Nat × Int
  renewed : Nat × Int
  decode : List Char → List Nat
  accept : AcceptInput → Except (List Char) AcceptResult
  ssoJson : Nat → Method → ResolvedOptions → String

/-- Observable effects of one request, in program order. -/
inductive Event where
  | freeCredential (c : Nat)
  | acquireCredential (c : Nat)
  | setCookieMode
  | waitForReleased
  | endResponse
  | acceptCall (i : AcceptInput)
  | setHandle (h : Nat)
  | deleteContext (h : Nat)
  | releaseSlot
  | logError
deriving DecidableEq, Repr

/-- Server-side state closed over by the middleware: the credential
handle, its expiry, and the context-handle slot held in the manager for
the correlation key of the request (modelled from the spec: the manager
keeps at most one pending handle per key). -/
structure ServerState where
  credential : Nat
  tsExpiry : Int
  slot : Option Nat
deriving DecidableEq, Repr

/-- The parts of the ServerResponse the middleware touches. A response
never written keeps statusCode 200, carries no challenge header and is
not ended. -/
structure Response where
  statusCode : Nat := 200
  wwwAuthenticate : Option (List Char) := none
  ended : Bool := false
  body : List Char := []
deriving DecidableEq, Repr

/-- Everything one middleware call produces: the response, the new
server state, the arguments of every call of next in order (none means
no error argument), the event trace, and the session attached to
req.sso. -/
structure Outcome where
  res : Response
  state : ServerState
  nextCalls : List (Option (Nat × List Char))
  events : List Event
  sso : Option String
deriving DecidableEq, Repr

/-- String.prototype.startsWith on character lists: first argument the
receiver, second the searched head. -/
def strStartsWith : List Char → List Char → Bool
  | _, [] => true
  | [], _ :: _ => false
  | c :: cs, p :: ps => c == p && strStartsWith cs ps

/-- Character table of the base64 encoder of base64-arraybuffer. -/
def b64char (n : Nat) : Char :=
  "ABCDEFGHIJKLMNOPQRSTUVWXYZabcdefghijklmnopqrstuvwxyz0123456789+/".toList.getD n 'A'

/-- The encode function of base64-arraybuffer: four output characters
per three input bytes, with padding for a one- or two-byte tail. -/
def b64encode : List Nat → List Char
  | [] => []
  | [b0] =>
    [b64char (b0 % 256 / 4), b64char (b0 % 4 * 16), '=', '=']
  | [b0, b1] =>
    [b64char (b0 % 256 / 4), b64char (b0 % 4 * 16 + b1 % 256 / 16),
      b64char (b1 % 16 * 4), '=']
  | b0 :: b1 :: b2 :: rest =>
    b64char (b0 % 256 / 4) :: b64char (b0 % 4 * 16 + b1 % 256 / 16) ::
      b64char (b1 % 16 * 4 + b2 % 256 / 64) :: b64char (b2 % 64) ::
      b64encode rest

/-- The scheme the middleware expects at the head of the authorization
header, trailing space included. -/
def negotiateScheme : List Char := "Negotiate ".toList

/-- Value of the WWW-Authenticate header of the initial challenge. -/
def negotiateHeader : List Char := "Negotiate".toList

/-- Token head that makes the code label the mechanism Kerberos. -/
def kerberosMarker : List Char := "YII".toList

/-- Fixed message of the error passed to next from the catch block. -/
def genericErrorMsg : List Char :=
  "Unexpected error while doing SSO. Please contact your system administrator.".toList

/-- Message of the 400 error for a header with the wrong scheme. -/
def malformedMsg (a : List Char) : List Char :=
  "Malformed authentication token ".toList ++ a

/-- Message of the construction-time conflict throw. -/
def conflictMsg : List Char :=
  "Sorry. Limitation... Cannot have both useActiveDirectory=true and useCookies=true... because it will crash when calling ActiveDirectory.".toList

/-- checkCredentials of auth.ts: when the expiry has passed, the old
handle is freed first, then a new credential is acquired and both
fields are replaced; otherwise nothing happens. Returns the new pair
(credential, tsExpiry) and the trace. -/
def checkCredentials (env : Env) (credential : Nat) (tsExpiry : Int) :
    (Nat × Int) × List Event :=
  if tsExpiry < env.now then
    ((env.renewed.1, env.renewed.2),
      [Event.freeCredential credential, Event.acquireCredential env.renewed.1])
  else
    ((credential, tsExpiry), [])

/-- Handling of the provider step result, auth.ts lines 99 to 138:
store the returned handle in the manager, branch on SECURITY_STATUS
(401 challenge on CONTINUE_NEEDED; header, session assembly, context
deletion and slot release on OK; plain fallthrough otherwise), the
catch clause for a thrown step, and the trailing call of next outside
the try block. The step result is passed in so that the branching is
explicit in the definition. -/
def afterStep (env : Env) (opts : ResolvedOptions) (cred : Nat) (ts : Int)
    (slot0 : Option Nat) (ev0 : List Event) (input : AcceptInput)
    (method : Method) (stepResult : Except (List Char) AcceptResult) : Outcome :=
  match stepResult with
  | Except.error _ =>
    { res := {},
      state := { credential := cred, tsExpiry := ts, slot := slot0 },
      nextCalls := [some (400, genericErrorMsg), none],
      events := ev0 ++ [Event.acceptCall input, Event.logError],
      sso := none }
  | Except.ok r =>
    if r.status = SecurityStatus.continueNeeded then
      { res := { statusCode := 401,
                 wwwAuthenticate := some (negotiateScheme ++ b64encode r.outBuffer),
                 ended := true, body := [] },
        state := { credential := cred, tsExpiry := ts, slot := some r.contextHandle },
        nextCalls := [],
        events := ev0 ++ [Event.acceptCall input, Event.setHandle r.contextHandle,
                          Event.endResponse],
        sso := none }
    else if r.status = SecurityStatus.secOk then
      { res := { statusCode := 200,
                 wwwAuthenticate := some (negotiateScheme ++ b64encode r.outBuffer),
                 ended := false, body := [] },
        state := { credential := cred, tsExpiry := ts, slot := none },
        nextCalls := [none],
        events := ev0 ++ [Event.acceptCall input, Event.setHandle r.contextHandle,
                          Event.deleteContext r.contextHandle, Event.releaseSlot],
        sso := some (env.ssoJson r.contextHandle method opts) }
    else
      { res := {},
        state := { credential := cred, tsExpiry := ts, slot := some r.contextHandle },
        nextCalls := [none],
        events := ev0 ++ [Event.acceptCall input, Event.setHandle r.contextHandle],
        sso := none }

/-- The middleware body of auth.ts for one request: checkCredentials,
cookie mode, the no-authorization branch (await the manager, then end a
401 challenge), the wrong-scheme branch (next with a 400 naming the
value), and otherwise the decoded token is passed to the provider step
whose result afterStep handles. -/
def handleRequest (env : Env) (opts : ResolvedOptions) (st : ServerState)
    (authorization : Option (List Char)) : Outcome :=
  let cc := checkCredentials env st.credential st.tsExpiry
  let cred := cc.1.1
  let ts := cc.1.2
  let ev0 := cc.2 ++ (if opts.useCookies then [Event.setCookieMode] else [])
  match authorization with
  | none =>
    { res := { statusCode := 401, wwwAuthenticate := some negotiateHeader,
               ended := true, body := [] },
      state := { credential := cred, tsExpiry := ts, slot := st.slot },
      nextCalls := [],
      events := ev0 ++ [Event.waitForReleased, Event.endResponse],
      sso := none }
  | some a =>
    if strStartsWith a negotiateScheme then
      let token := a.drop negotiateScheme.length
      let method := if strStartsWith token kerberosMarker then Method.kerberos
                    else Method.ntlm
      let input : AcceptInput :=
        { credential := cred, buffer := env.decode token, contextHandle := st.slot }
      afterStep env opts cred ts st.slot ev0 input method (env.accept input)
    else
      { res := {},
        state := { credential := cred, tsExpiry := ts, slot := st.slot },
        nextCalls := [some (400, malformedMsg a)],
        events := ev0,
        sso := none }

/-- The function auth of auth.ts up to returning the middleware closure:
assign the defaults, throw on the useActiveDirectory and useCookies
conflict (this check precedes the credential acquisition), otherwise
acquire the server credential and close over the initial state.
Except.error models the throw. -/
def authConstruct (env : Env) (options : AuthOptions) :
    Except (List Char) (ResolvedOptions × ServerState) :=
  let opts := resolveOptions options
  if opts.useActiveDirectory && opts.useCookies then
    Except.error conflictMsg
  else
    Except.ok (opts,
      { credential := env.initialCred.1, tsExpiry := env.initialCred.2, slot := none })

/-- Recognizer of provider-side context deletions in a trace. -/
def isDeleteEvent : Event → Bool
  | Event.deleteContext _ => true
  | _ => false

/-- Number of provider-side context deletions in a trace. -/
def countDeletes (evs : List Event) : Nat := evs.countP isDeleteEvent

/-- The renewal order asserted by the spec: in the trace, every free of
a credential handle comes after every acquisition of a new one. -/
def acquireBeforeFree (evs : List Event) : Prop :=
  ∀ (i j c c' : Nat), evs[i]? = some (Event.freeCredential c) →
    evs[j]? = some (Event.acquireCredential c') → j < i

/-- The AcceptSecurityContext input the handler builds for a well-formed
header: the (possibly renewed) credential, the decoded token after the
scheme, and the slot content as the optional existing context handle. -/
def stepInput (env : Env) (st : ServerState) (token : List Char) : AcceptInput :=
  { credential := (checkCredentials env st.credential st.tsExpiry).1.1,
    buffer := env.decode token,
    contextHandle := st.slot }

/-- Concrete options: the defaults of auth.ts. -/
def optsW : ResolvedOptions :=
  { useGroups := true, useActiveDirectory := true, useOwner := false,
    useCookies := false }

/-- Concrete server state holding a pending handle in the slot. -/
def stW : ServerState := { credential := 1, tsExpiry := 100, slot := some 5 }

/-- Concrete well-formed authorization header. -/
def hdrW : List Char := "Negotiate dG9r".toList

/-- Concrete environment whose provider step succeeds with SEC_E_OK. -/
def envW : Env :=
  { now := 0, initialCred := (1, 100), renewed := (2, 200),
    decode := fun t => t.map Char.toNat,
    accept := fun _ =>
      Except.ok { contextHandle := 7, outBuffer := [78, 84],
                  status := SecurityStatus.secOk },
    ssoJson := fun _ _ _ => "session" }

/-- Concrete environment whose provider step throws. -/
def envThrowing : Env := { envW with accept := fun _ => Except.error "boom".toList }

/-- Concrete environment whose provider step returns SEC_E_LOGON_DENIED. -/
def envDenied : Env :=
  { envW with accept := fun _ =>
      Except.ok { contextHandle := 9, outBuffer := [],
                  status := SecurityStatus.logonDenied } }

/-- Concrete environment whose provider step returns SEC_I_CONTINUE_NEEDED. -/
def envContinue : Env :=
  { envW with accept := fun _ =>
      Except.ok { contextHandle := 11, outBuffer := [1, 2, 3],
                  status := SecurityStatus.continueNeeded } }

/-- A list headed by the searched characters passes strStartsWith. -/
theorem strStartsWith_append (p t : List Char) : strStartsWith (p ++ t) p = true := by
  induction p with
  | nil => simp [strStartsWith]
  | cons c cs ih => simp [strStartsWith, ih]

/-- The renewal trace contains no context deletion. -/
theorem countDeletes_checkCredentials (env : Env) (c : Nat) (t : Int) :
    countDeletes (checkCredentials env c t).2 = 0 := by
  unfold checkCredentials
  split <;>
    simp [countDeletes, List.countP_cons, List.countP_nil, isDeleteEvent]

/-- The cookie-mode trace contains no context deletion. -/
theorem countDeletes_cookie (b : Bool) :
    countDeletes (if b then [Event.setCookieMode] else []) = 0 := by
  cases b <;>
    simp [countDeletes, List.countP_cons, List.countP_nil, isDeleteEvent]

/-- Encoding a nonempty byte list yields a nonempty base64 string. -/
theorem b64encode_ne_nil (l : List Nat) (h : l ≠ []) : b64encode l ≠ [] := by
  match l with
  | [] => exact absurd rfl h
  | [b0] => simp [b64encode]
  | [b0, b1] => simp [b64encode]
  | b0 :: b1 :: b2 :: rest => simp [b64encode]

/-- C6: for a request with no credential header, the handler first
awaits the manager slot (waitForReleased) and only afterwards ends the
response, which is a 401 with WWW-Authenticate Negotiate and an empty
body; next is not called and no session is attached. -/
theorem c6_no_header_challenge (env : Env) (opts : ResolvedOptions) (st : ServerState) :
    (handleRequest env opts st none).res =
      { statusCode := 401, wwwAuthenticate := some negotiateHeader,
        ended := true, body := [] } ∧
    (handleRequest env opts st none).events =
      (checkCredentials env st.credential st.tsExpiry).2 ++
        ((if opts.useCookies then [Event.setCookieMode] else []) ++
          [Event.waitForReleased, Event.endResponse]) ∧
    (handleRequest env opts st none).nextCalls = [] ∧
    (handleRequest env opts st none).sso = none := by
  refine ⟨rfl, ?_, rfl, rfl⟩
  simp [handleRequest, List.append_assoc]

/-- C7: constructing the middleware with both directory enrichment and
cookie mode enabled throws the conflict error at construction, before
any request is served. -/
theorem c7_conflict_throws (env : Env) (o : AuthOptions)
    (had : (resolveOptions o).useActiveDirectory = true)
    (hck : (resolveOptions o).useCookies = true) :
    authConstruct env o = Except.error conflictMsg := by
  simp [authConstruct, had, hck]

/-- Witness for c7_conflict_throws at explicit options. -/
theorem c7_conflict_throws_witness :
    (resolveOptions { useActiveDirectory := some true, useCookies := some true }).useActiveDirectory = true ∧
    (resolveOptions { useActiveDirectory := some true, useCookies := some true }).useCookies = true ∧
    authConstruct envW { useActiveDirectory := some true, useCookies := some true } =
      Except.error conflictMsg :=
  ⟨rfl, rfl, c7_conflict_throws envW _ rfl rfl⟩

/-- C9: because useActiveDirectory defaults to true, any options with
useCookies true and useActiveDirectory not explicitly false make the
construction throw the conflict error; in particular enabling only
useCookies throws. -/
theorem c9_cookie_only_throws (env : Env) (o : AuthOptions)
    (hck : o.useCookies = some true)
    (had : o.useActiveDirectory ≠ some false) :
    authConstruct env o = Except.error conflictMsg := by
  have h2 : (resolveOptions o).useActiveDirectory = true := by
    cases h : o.useActiveDirectory with
    | none => simp [resolveOptions, h]
    | some b =>
      cases b with
      | false => exact absurd h had
      | true => simp [resolveOptions, h]
  have h1 : (resolveOptions o).useCookies = true := by
    simp [resolveOptions, hck]
  simp [authConstruct, h1, h2]

/-- Witness for c9_cookie_only_throws: useCookies alone throws. -/
theorem c9_cookie_only_throws_witness :
    ({ useCookies := some true } : AuthOptions).useCookies = some true ∧
    ({ useCookies := some true } : AuthOptions).useActiveDirectory ≠ some false ∧
    authConstruct envW { useCookies := some true } = Except.error conflictMsg :=
  ⟨rfl, by decide, c9_cookie_only_throws envW _ rfl (by decide)⟩

/-- C5 counterexample: at a concrete expired credential, the renewal
trace frees the old handle first and acquires the new one second, so
the claimed acquire-before-free order fails. -/
theorem c5_counterexample :
    (checkCredentials envW 1 (-1)).2 =
      [Event.freeCredential 1, Event.acquireCredential 2] ∧
    ¬ acquireBeforeFree (checkCredentials envW 1 (-1)).2 := by
  constructor
  · decide
  · intro hord
    have h := hord 0 1 1 2 rfl rfl
    omega

/-- C5 amended: when the expiry has passed, checkCredentials frees the
old handle first, then acquires the renewed credential and swaps both
fields in; the routine is synchronous, so its callers observe either
the state before the call or the fully swapped state after it. -/
theorem c5_renewal_frees_then_acquires (env : Env) (cred : Nat) (ts : Int)
    (h : ts < env.now) :
    checkCredentials env cred ts =
      ((env.renewed.1, env.renewed.2),
        [Event.freeCredential cred, Event.acquireCredential env.renewed.1]) := by
  simp [checkCredentials, h]

/-- Witness for c5_renewal_frees_then_acquires at an expired state. -/
theorem c5_renewal_frees_then_acquires_witness :
    ((-1 : Int) < envW.now) ∧
    checkCredentials envW 1 (-1) =
      ((2, 200), [Event.freeCredential 1, Event.acquireCredential 2]) :=
  ⟨by decide, by rw [c5_renewal_frees_then_acquires envW 1 (-1) (by decide)]; rfl⟩

/-- C10: when the provider step throws, the next continuation is
invoked twice in the same request: once with the generic 400 error from
the catch block and once more with no argument by the trailing call
placed outside the try block. -/
theorem c10_next_called_twice (env : Env) (opts : ResolvedOptions) (st : ServerState)
    (a e : List Char)
    (hpre : strStartsWith a negotiateScheme = true)
    (hacc : env.accept (stepInput env st (a.drop negotiateScheme.length)) =
      Except.error e) :
    (handleRequest env opts st (some a)).nextCalls =
      [some (400, genericErrorMsg), none] := by
  simp only [stepInput] at hacc
  simp [handleRequest, afterStep, hpre, hacc]

/-- Witness for c10_next_called_twice at a concrete throwing step. -/
theorem c10_next_called_twice_witness :
    strStartsWith hdrW negotiateScheme = true ∧
    envThrowing.accept (stepInput envThrowing stW (hdrW.drop negotiateScheme.length)) =
      Except.error "boom".toList ∧
    (handleRequest envThrowing optsW stW (some hdrW)).nextCalls =
      [some (400, genericErrorMsg), none] :=
  ⟨by decide, rfl,
    c10_next_called_twice envThrowing optsW stW hdrW ("boom".toList) (by decide) rfl⟩

/-- Appending traces adds their deletion counts. -/
theorem countDeletes_append (l1 l2 : List Event) :
    countDeletes (l1 ++ l2) = countDeletes l1 + countDeletes l2 := by
  simp [countDeletes, List.countP_append]

/-- Deletion count of a cons cell. -/
theorem countDeletes_cons (e : Event) (l : List Event) :
    countDeletes (e :: l) = countDeletes l + if isDeleteEvent e then 1 else 0 := by
  simp [countDeletes, List.countP_cons]

/-- Deletion count of the empty trace. -/
theorem countDeletes_nil : countDeletes [] = 0 := rfl

/-- C1 counterexample: at a concrete request whose provider step throws
while a handle is held for the key, the handler exits with the slot
still occupied, so the slot is not released on every exit path. -/
theorem c1_counterexample :
    (handleRequest envThrowing optsW stW (some hdrW)).state.slot = some 5 ∧
    ¬ (handleRequest envThrowing optsW stW (some hdrW)).state.slot = none := by
  decide

/-- C1 amended: a throw during the provider step is caught and logged,
next receives a 400 whose message is the fixed generic constant and so
carries no internal detail of the thrown error, but the manager slot is
not released on this path: it keeps exactly the value it had before the
request (release happens only on the OK path). -/
theorem c1_error_caught_slot_kept (env : Env) (opts : ResolvedOptions)
    (st : ServerState) (a e : List Char)
    (hpre : strStartsWith a negotiateScheme = true)
    (hacc : env.accept (stepInput env st (a.drop negotiateScheme.length)) =
      Except.error e) :
    (handleRequest env opts st (some a)).nextCalls.head? =
      some (some (400, genericErrorMsg)) ∧
    Event.logError ∈ (handleRequest env opts st (some a)).events ∧
    (handleRequest env opts st (some a)).state.slot = st.slot := by
  simp only [stepInput] at hacc
  refine ⟨?_, ?_, ?_⟩ <;> simp [handleRequest, afterStep, hpre, hacc]

/-- Witness for c1_error_caught_slot_kept at a concrete throwing step. -/
theorem c1_error_caught_slot_kept_witness :
    strStartsWith hdrW negotiateScheme = true ∧
    envThrowing.accept (stepInput envThrowing stW (hdrW.drop negotiateScheme.length)) =
      Except.error "boom".toList ∧
    ((handleRequest envThrowing optsW stW (some hdrW)).nextCalls.head? =
        some (some (400, genericErrorMsg)) ∧
      Event.logError ∈ (handleRequest envThrowing optsW stW (some hdrW)).events ∧
      (handleRequest envThrowing optsW stW (some hdrW)).state.slot = stW.slot) :=
  ⟨by decide, rfl,
    c1_error_caught_slot_kept envThrowing optsW stW hdrW ("boom".toList) (by decide) rfl⟩

/-- C2 counterexample: at a concrete request whose step returns
SEC_E_LOGON_DENIED, the handler stores the returned handle and exits
with the slot occupied, so it does not free the slot held for the key. -/
theorem c2_counterexample :
    (handleRequest envDenied optsW stW (some hdrW)).state.slot = some 9 ∧
    ¬ (handleRequest envDenied optsW stW (some hdrW)).state.slot = none := by
  decide

/-- C2 amended: on a DENIED or any other non-CONTINUE non-OK status the
handler calls next exactly once with no error argument, attaches no
session and writes nothing to the response, but it does not free the
slot: the handle returned by the failed step is stored and remains in
the manager; a header with the wrong scheme still yields the single 400
error call naming the value. -/
theorem c2_denied_unauthenticated (env : Env) (opts : ResolvedOptions)
    (st : ServerState) (a : List Char) (r : AcceptResult)
    (hpre : strStartsWith a negotiateScheme = true)
    (hacc : env.accept (stepInput env st (a.drop negotiateScheme.length)) =
      Except.ok r)
    (hs1 : r.status ≠ SecurityStatus.continueNeeded)
    (hs2 : r.status ≠ SecurityStatus.secOk) :
    (handleRequest env opts st (some a)).nextCalls = [none] ∧
    (handleRequest env opts st (some a)).sso = none ∧
    (handleRequest env opts st (some a)).res =
      { statusCode := 200, wwwAuthenticate := none, ended := false, body := [] } ∧
    (handleRequest env opts st (some a)).state.slot = some r.contextHandle ∧
    (∀ b, strStartsWith b negotiateScheme = false →
      (handleRequest env opts st (some b)).nextCalls = [some (400, malformedMsg b)]) := by
  simp only [stepInput] at hacc
  refine ⟨?_, ?_, ?_, ?_, ?_⟩
  · simp [handleRequest, afterStep, hpre, hacc, hs1, hs2]
  · simp [handleRequest, afterStep, hpre, hacc, hs1, hs2]
  · simp [handleRequest, afterStep, hpre, hacc, hs1, hs2]
  · simp [handleRequest, afterStep, hpre, hacc, hs1, hs2]
  · intro b hb
    simp [handleRequest, hb]

/-- Witness for c2_denied_unauthenticated at a concrete denied step. -/
theorem c2_denied_unauthenticated_witness :
    strStartsWith hdrW negotiateScheme = true ∧
    envDenied.accept (stepInput envDenied stW (hdrW.drop negotiateScheme.length)) =
      Except.ok { contextHandle := 9, outBuffer := [],
                  status := SecurityStatus.logonDenied } ∧
    ((handleRequest envDenied optsW stW (some hdrW)).nextCalls = [none] ∧
      (handleRequest envDenied optsW stW (some hdrW)).sso = none ∧
      (handleRequest envDenied optsW stW (some hdrW)).res =
        { statusCode := 200, wwwAuthenticate := none, ended := false, body := [] } ∧
      (handleRequest envDenied optsW stW (some hdrW)).state.slot = some 9 ∧
      (∀ b, strStartsWith b negotiateScheme = false →
        (handleRequest envDenied optsW stW (some b)).nextCalls =
          [some (400, malformedMsg b)])) :=
  ⟨by decide, rfl,
    c2_denied_unauthenticated envDenied optsW stW hdrW
      { contextHandle := 9, outBuffer := [], status := SecurityStatus.logonDenied }
      (by decide) rfl (by decide) (by decide)⟩

/-- C3: for a well-formed request whose provider step succeeds, if the
status is OK the provider-side handle is deleted exactly once, the
deletion names the handle of the step result, and the slot holds no
entry afterwards; if the status is not OK this request deletes nothing. -/
theorem c3_ok_deletes_once (env : Env) (opts : ResolvedOptions)
    (st : ServerState) (a : List Char) (r : AcceptResult)
    (hpre : strStartsWith a negotiateScheme = true)
    (hacc : env.accept (stepInput env st (a.drop negotiateScheme.length)) =
      Except.ok r) :
    (r.status = SecurityStatus.secOk →
      countDeletes (handleRequest env opts st (some a)).events = 1 ∧
      Event.deleteContext r.contextHandle ∈
        (handleRequest env opts st (some a)).events ∧
      (handleRequest env opts st (some a)).state.slot = none) ∧
    (r.status ≠ SecurityStatus.secOk →
      countDeletes (handleRequest env opts st (some a)).events = 0) := by
  simp only [stepInput] at hacc
  constructor
  · intro hs
    have hn : r.status ≠ SecurityStatus.continueNeeded := by
      rw [hs]
      intro hc
      cases hc
    refine ⟨?_, ?_, ?_⟩
    · simp [handleRequest, afterStep, hpre, hacc, hs, hn, countDeletes_append,
        countDeletes_checkCredentials, countDeletes_cookie, countDeletes_cons,
        countDeletes_nil, isDeleteEvent]
    · simp [handleRequest, afterStep, hpre, hacc, hs, hn]
    · simp [handleRequest, afterStep, hpre, hacc, hs, hn]
  · intro hs
    by_cases hc : r.status = SecurityStatus.continueNeeded
    · simp [handleRequest, afterStep, hpre, hacc, hc, countDeletes_append,
        countDeletes_checkCredentials, countDeletes_cookie, countDeletes_cons,
        countDeletes_nil, isDeleteEvent]
    · simp [handleRequest, afterStep, hpre, hacc, hc, hs, countDeletes_append,
        countDeletes_checkCredentials, countDeletes_cookie, countDeletes_cons,
        countDeletes_nil, isDeleteEvent]

/-- Witness for c3_ok_deletes_once at a concrete OK step. -/
theorem c3_ok_deletes_once_witness :
    strStartsWith hdrW negotiateScheme = true ∧
    envW.accept (stepInput envW stW (hdrW.drop negotiateScheme.length)) =
      Except.ok { contextHandle := 7, outBuffer := [78, 84],
                  status := SecurityStatus.secOk } ∧
    (countDeletes (handleRequest envW optsW stW (some hdrW)).events = 1 ∧
      Event.deleteContext 7 ∈ (handleRequest envW optsW stW (some hdrW)).events ∧
      (handleRequest envW optsW stW (some hdrW)).state.slot = none) :=
  ⟨by decide, rfl,
    (c3_ok_deletes_once envW optsW stW hdrW
      { contextHandle := 7, outBuffer := [78, 84], status := SecurityStatus.secOk }
      (by decide) rfl).1 rfl⟩

/-- C4: a CONTINUE_NEEDED step stores the returned handle as the
pending slot content, answers 401 with the base64 output token after
the Negotiate scheme in the WWW-Authenticate header, ends the response
without calling next, and a nonempty provider output token makes the
encoded continuation token nonempty. -/
theorem c4_continue_challenge (env : Env) (opts : ResolvedOptions)
    (st : ServerState) (a : List Char) (r : AcceptResult)
    (hpre : strStartsWith a negotiateScheme = true)
    (hacc : env.accept (stepInput env st (a.drop negotiateScheme.length)) =
      Except.ok r)
    (hs : r.status = SecurityStatus.continueNeeded)
    (hne : r.outBuffer ≠ []) :
    (handleRequest env opts st (some a)).state.slot = some r.contextHandle ∧
    (handleRequest env opts st (some a)).res.statusCode = 401 ∧
    (handleRequest env opts st (some a)).res.wwwAuthenticate =
      some (negotiateScheme ++ b64encode r.outBuffer) ∧
    b64encode r.outBuffer ≠ [] ∧
    (handleRequest env opts st (some a)).res.ended = true ∧
    (handleRequest env opts st (some a)).nextCalls = [] := by
  simp only [stepInput] at hacc
  refine ⟨?_, ?_, ?_, b64encode_ne_nil r.outBuffer hne, ?_, ?_⟩ <;>
    simp [handleRequest, afterStep, hpre, hacc, hs]

/-- Witness for c4_continue_challenge at a concrete continue step. -/
theorem c4_continue_challenge_witness :
    strStartsWith hdrW negotiateScheme = true ∧
    envContinue.accept (stepInput envContinue stW (hdrW.drop negotiateScheme.length)) =
      Except.ok { contextHandle := 11, outBuffer := [1, 2, 3],
                  status := SecurityStatus.continueNeeded } ∧
    ([1, 2, 3] ≠ ([] : List Nat)) ∧
    ((handleRequest envContinue optsW stW (some hdrW)).state.slot = some 11 ∧
      (handleRequest envContinue optsW stW (some hdrW)).res.statusCode = 401 ∧
      (handleRequest envContinue optsW stW (some hdrW)).res.wwwAuthenticate =
        some (negotiateScheme ++ b64encode [1, 2, 3]) ∧
      b64encode [1, 2, 3] ≠ [] ∧
      (handleRequest envContinue optsW stW (some hdrW)).res.ended = true ∧
      (handleRequest envContinue optsW stW (some hdrW)).nextCalls = []) :=
  ⟨by decide, rfl, by decide,
    c4_continue_challenge envContinue optsW stW hdrW
      { contextHandle := 11, outBuffer := [1, 2, 3],
        status := SecurityStatus.continueNeeded }
      (by decide) rfl rfl (by decide)⟩

/-- The response, the next calls and the final state of afterStep
depend only on the step result and the surrounding state, not on the
sniffed method or the assembled input. -/
theorem afterStep_method_irrelevant (env : Env) (opts : ResolvedOptions)
    (cred : Nat) (ts : Int) (slot0 : Option Nat) (ev0 : List Event)
    (i1 i2 : AcceptInput) (m1 m2 : Method)
    (sr : Except (List Char) AcceptResult) :
    (afterStep env opts cred ts slot0 ev0 i1 m1 sr).res =
      (afterStep env opts cred ts slot0 ev0 i2 m2 sr).res ∧
    (afterStep env opts cred ts slot0 ev0 i1 m1 sr).nextCalls =
      (afterStep env opts cred ts slot0 ev0 i2 m2 sr).nextCalls ∧
    (afterStep env opts cred ts slot0 ev0 i1 m1 sr).state =
      (afterStep env opts cred ts slot0 ev0 i2 m2 sr).state := by
  cases sr with
  | error e => exact ⟨rfl, rfl, rfl⟩
  | ok r =>
    by_cases h1 : r.status = SecurityStatus.continueNeeded
    · simp [afterStep, h1]
    · by_cases h2 : r.status = SecurityStatus.secOk
      · simp [afterStep, h1, h2]
      · simp [afterStep, h1, h2]

/-- C8: the Kerberos versus NTLM label computed from the token leading
bytes never changes the branches taken: two well-formed requests whose
provider step results coincide produce the same response (status and
WWW-Authenticate header included), the same next calls and the same
final server state, whatever their leading bytes are. -/
theorem c8_label_diagnostic_only (env : Env) (opts : ResolvedOptions)
    (st : ServerState) (t1 t2 : List Char)
    (hacc : env.accept (stepInput env st t1) = env.accept (stepInput env st t2)) :
    (handleRequest env opts st (some (negotiateScheme ++ t1))).res =
      (handleRequest env opts st (some (negotiateScheme ++ t2))).res ∧
    (handleRequest env opts st (some (negotiateScheme ++ t1))).nextCalls =
      (handleRequest env opts st (some (negotiateScheme ++ t2))).nextCalls ∧
    (handleRequest env opts st (some (negotiateScheme ++ t1))).state =
      (handleRequest env opts st (some (negotiateScheme ++ t2))).state := by
  have hp1 := strStartsWith_append negotiateScheme t1
  have hp2 := strStartsWith_append negotiateScheme t2
  have hd1 : (negotiateScheme ++ t1).drop negotiateScheme.length = t1 :=
    List.drop_left negotiateScheme t1
  have hd2 : (negotiateScheme ++ t2).drop negotiateScheme.length = t2 :=
    List.drop_left negotiateScheme t2
  simp only [stepInput] at hacc
  simp only [handleRequest, hp1, hp2, hd1, hd2, if_true]
  rw [hacc]
  exact afterStep_method_irrelevant env opts _ _ _ _ _ _ _ _ _

/-- Witness for c8_label_diagnostic_only: a Kerberos-labelled and an
NTLM-labelled token with the same step result get the same response. -/
theorem c8_label_diagnostic_only_witness :
    envW.accept (stepInput envW stW "YIIabc".toList) =
      envW.accept (stepInput envW stW "TlRMabc".toList) ∧
    ((handleRequest envW optsW stW (some (negotiateScheme ++ "YIIabc".toList))).res =
        (handleRequest envW optsW stW (some (negotiateScheme ++ "TlRMabc".toList))).res ∧
      (handleRequest envW optsW stW (some (negotiateScheme ++ "YIIabc".toList))).nextCalls =
        (handleRequest envW optsW stW (some (negotiateScheme ++ "TlRMabc".toList))).nextCalls ∧
      (handleRequest envW optsW stW (some (negotiateScheme ++ "YIIabc".toList))).state =
        (handleRequest envW optsW stW (some (negotiateScheme ++ "TlRMabc".toList))).state) :=
  ⟨rfl, c8_label_diagnostic_only envW optsW stW ("YIIabc".toList) ("TlRMabc".toList) rfl⟩
